import Mathlib

/-!
Verification of the midilogic clock / trigger-dispatch subsystem.

The TypeScript sources are shallowly embedded: JavaScript numbers become
rationals (`ℚ`), `Math.floor` becomes `Int.floor`, the JavaScript `%`
operator (truncated remainder) becomes `jsMod`, `Math.round` becomes
`jsRound`.  Stateful services become explicit state records with pure
transition functions; `setTimeout` timers become explicit pending-timer
entries carrying their due time, and the event loop that fires them is an
explicit drain function.
-/

namespace Midilogic

/-- Truncation toward zero, as JavaScript number-to-integer conversion. -/
def jsTrunc (q : ℚ) : ℤ := if q < 0 then -⌊-q⌋ else ⌊q⌋

/-- The JavaScript `%` operator on numbers: `a % b = a - b * trunc (a / b)`. -/
def jsMod (a b : ℚ) : ℚ := a - b * (jsTrunc (a / b) : ℚ)

/-- JavaScript `Math.round`: `floor (x + 1/2)`. -/
def jsRound (q : ℚ) : ℤ := ⌊q + 1 / 2⌋

/-! Clock engine (ClockService). -/

/-- State held in the `_clockState` signal of `ClockService`. -/
structure ClockState where
  isRunning : Bool
  currentBeat : ℚ
  currentBar : ℚ
  beatsPerBar : ℚ
  subdivision : ℚ
deriving DecidableEq, Repr

/-- A pulse event (`ClockPulse`) emitted once per tick. -/
structure ClockPulse where
  timestamp : ℚ
  beat : ℚ
  bar : ℚ
  subdivision : ℚ
deriving DecidableEq, Repr

/-- Construction-time defaults of `_clockState`. -/
def initialClockState : ClockState :=
  { isRunning := false, currentBeat := 1, currentBar := 1, beatsPerBar := 4, subdivision := 16 }

/-- The `millisecondsPerBeat` computed signal: `60000 / bpm`, falling back to
120 BPM when the configured bpm is non-positive or above 1000. -/
def millisecondsPerBeat (bpm : ℚ) : ℚ :=
  if bpm ≤ 0 ∨ 1000 < bpm then 60000 / 120 else 60000 / bpm

/-- The `millisecondsPerSubdivision` computed signal: `msPerBeat / (subdivision / 4)`,
falling back to `msPerBeat / 4` on an invalid subdivision and clamping the
result to a 5 ms floor. -/
def millisecondsPerSubdivision (subdivision msPerBeat : ℚ) : ℚ :=
  if subdivision ≤ 0 ∨ 64 < subdivision then msPerBeat / 4
  else
    let result := msPerBeat / (subdivision / 4)
    if result < 5 then 5 else result

/-- The mutable fields of `ClockService` relevant to timing. -/
structure ClockEngine where
  clockState : ClockState
  startTime : ℚ
  pausedTime : ℚ
  lastPulseTime : ℚ
  lastPulse : Option ClockPulse
deriving DecidableEq, Repr

/-- Engine state at service construction. -/
def initialClockEngine : ClockEngine :=
  { clockState := initialClockState, startTime := 0, pausedTime := 0,
    lastPulseTime := 0, lastPulse := none }

/-- `setBeatsPerBar`: accepted only for `1 ≤ beats ≤ 16`, otherwise ignored. -/
def setBeatsPerBar (beats : ℚ) (s : ClockState) : ClockState :=
  if 1 ≤ beats ∧ beats ≤ 16 then { s with beatsPerBar := beats } else s

/-- `setSubdivision`: accepted only for values in `[4, 8, 16, 32]`, otherwise ignored. -/
def setSubdivision (subdivision : ℚ) (s : ClockState) : ClockState :=
  if subdivision = 4 ∨ subdivision = 8 ∨ subdivision = 16 ∨ subdivision = 32 then
    { s with subdivision := subdivision }
  else s

/-- `startInternalClock` at time `now`: resume-aware start time and running flag. -/
def startInternalClock (now : ℚ) (e : ClockEngine) : ClockEngine :=
  { e with
    startTime := now - e.pausedTime
    lastPulseTime := now - e.pausedTime
    clockState := { e.clockState with isRunning := true } }

/-- `stopInternalClock` at time `now`: records `pausedTime` and clears the running flag. -/
def stopInternalClock (now : ℚ) (e : ClockEngine) : ClockEngine :=
  { e with
    pausedTime := now - e.startTime
    clockState := { e.clockState with isRunning := false } }

/-- `reset()`: stop (when running), return beat/bar to 1, zero the paused time. -/
def resetClock (now : ℚ) (e : ClockEngine) : ClockEngine :=
  let stopped := if e.clockState.isRunning then stopInternalClock now e else e
  { stopped with
    clockState := { stopped.clockState with currentBeat := 1, currentBar := 1 }
    pausedTime := 0 }

/-- `generatePulse` fired at time `now`: recomputes the musical position from
`now - startTime`, updates the clock state when beat or bar changed, and
records the emitted pulse.  Skips when the subdivision interval is below 5 ms. -/
def generatePulse (bpm now : ℚ) (e : ClockEngine) : ClockEngine :=
  let currentState := e.clockState
  let subdivisionInterval := millisecondsPerSubdivision currentState.subdivision (millisecondsPerBeat bpm)
  if subdivisionInterval < 5 then e
  else
    let elapsedTime := now - e.startTime
    let totalSubdivisions : ℚ := (⌊elapsedTime / subdivisionInterval⌋ : ℤ)
    let subdivisionsPerBeat := currentState.subdivision / 4
    let subdivisionsPerBar := subdivisionsPerBeat * currentState.beatsPerBar
    let currentSubdivision := jsMod totalSubdivisions subdivisionsPerBeat + 1
    let currentBeat := jsMod ((⌊totalSubdivisions / subdivisionsPerBeat⌋ : ℤ) : ℚ) currentState.beatsPerBar + 1
    let currentBar := ((⌊totalSubdivisions / subdivisionsPerBar⌋ : ℤ) : ℚ) + 1
    let newState :=
      if currentState.currentBeat ≠ currentBeat ∨ currentState.currentBar ≠ currentBar then
        { currentState with currentBeat := currentBeat, currentBar := currentBar }
      else currentState
    { e with
      clockState := newState
      lastPulse := some { timestamp := now, beat := currentBeat, bar := currentBar,
                          subdivision := currentSubdivision }
      lastPulseTime := now }

/-- Delay computed by `scheduleNextPulse`: time to the next subdivision boundary,
raised to a 10 ms minimum, then (redundantly) to a 5 ms minimum, with a 5 ms
override when the interval itself is below 5 ms. -/
def nextPulseDelay (now lastPulseTime subdivisionInterval : ℚ) : ℚ :=
  let timeSinceLastPulse := now - lastPulseTime
  let delay0 := subdivisionInterval - jsMod timeSinceLastPulse subdivisionInterval
  let delay1 := max delay0 10
  let delay2 := max delay1 5
  if subdivisionInterval < 5 then 5 else delay2

/-- The self-scheduling loop: each `setTimeout` callback re-checks `isRunning`
and calls `generatePulse`; the list holds the successive firing times. -/
def runPulses (bpm : ℚ) (e : ClockEngine) (times : List ℚ) : ClockEngine :=
  times.foldl (fun acc t => if acc.clockState.isRunning then generatePulse bpm t acc else acc) e

/-- Engine states reachable through the public operations of `ClockService`.
`start`/`stop` act through the settings effect, which starts the internal clock
only when not yet running and stops it only when running; a pulse callback can
only fire while running, at a time not before the captured start time. -/
inductive ClockReachable : ClockEngine → Prop where
  | init : ClockReachable initialClockEngine
  | startOp (now : ℚ) (e : ClockEngine) (h : ClockReachable e) :
      ClockReachable (if e.clockState.isRunning then e else startInternalClock now e)
  | stopOp (now : ℚ) (e : ClockEngine) (h : ClockReachable e) :
      ClockReachable (if e.clockState.isRunning then stopInternalClock now e else e)
  | resetOp (now : ℚ) (e : ClockEngine) (h : ClockReachable e) :
      ClockReachable (resetClock now e)
  | setBeatsPerBarOp (beats : ℚ) (e : ClockEngine) (h : ClockReachable e) :
      ClockReachable { e with clockState := setBeatsPerBar beats e.clockState }
  | setSubdivisionOp (s : ℚ) (e : ClockEngine) (h : ClockReachable e) :
      ClockReachable { e with clockState := setSubdivision s e.clockState }
  | pulseOp (bpm now : ℚ) (e : ClockEngine) (h : ClockReachable e)
      (hrun : e.clockState.isRunning = true) (hnow : e.startTime ≤ now) :
      ClockReachable (generatePulse bpm now e)

/-- Bounds that hold in every reachable engine state. -/
def ClockInv (e : ClockEngine) : Prop :=
  1 ≤ e.clockState.beatsPerBar ∧ e.clockState.beatsPerBar ≤ 16 ∧
  (e.clockState.subdivision = 4 ∨ e.clockState.subdivision = 8 ∨
    e.clockState.subdivision = 16 ∨ e.clockState.subdivision = 32) ∧
  1 ≤ e.clockState.currentBeat ∧ e.clockState.currentBeat < 17 ∧
  1 ≤ e.clockState.currentBar

/-! MIDI output service (MidiService): note playing with note-off timers. -/

/-- Key of the `noteOffTimeouts` map (the string key `channel-note`). -/
structure NoteKey where
  channel : ℤ
  note : ℤ
deriving DecidableEq, Repr

/-- Messages handed to the selected MIDI output. -/
inductive MidiMsg where
  | noteOn (note velocity channel : ℤ)
  | noteOff (note channel : ℤ)
  | controlChange (controller value channel : ℤ)
deriving DecidableEq, Repr

/-- A scheduled note-off `setTimeout` that has not yet fired or been cancelled. -/
structure PendingNoteOff where
  timerId : ℕ
  dueTime : ℚ
  note : ℤ
  channel : ℤ
deriving DecidableEq, Repr

/-- State of `MidiService` with an output selected: timer-id counter, pending
note-off timers, the `noteOffTimeouts` map, and the log of sent messages. -/
structure MidiOut where
  nextTimerId : ℕ
  pendingNoteOffs : List PendingNoteOff
  noteOffTimeouts : List (NoteKey × ℕ)
  sent : List (ℚ × MidiMsg)
deriving DecidableEq, Repr

/-- Service state before any message was sent. -/
def initialMidiOut : MidiOut := { nextTimerId := 0, pendingNoteOffs := [], noteOffTimeouts := [], sent := [] }

/-- `Map.get` on the `noteOffTimeouts` map. -/
def findNoteTimeout (key : NoteKey) : List (NoteKey × ℕ) → Option ℕ
  | [] => none
  | kv :: rest => if kv.1 = key then some kv.2 else findNoteTimeout key rest

/-- `Map.set` on the `noteOffTimeouts` map. -/
def setNoteTimeout (key : NoteKey) (timeoutId : ℕ) : List (NoteKey × ℕ) → List (NoteKey × ℕ)
  | [] => [(key, timeoutId)]
  | kv :: rest =>
    if kv.1 = key then (key, timeoutId) :: rest else kv :: setNoteTimeout key timeoutId rest

/-- `Map.delete` on the `noteOffTimeouts` map. -/
def deleteNoteTimeout (key : NoteKey) (m : List (NoteKey × ℕ)) : List (NoteKey × ℕ) :=
  m.filter (fun kv => kv.1 ≠ key)

/-- `sendNoteOn`: a note-on message to the selected output. -/
def sendNoteOn (now : ℚ) (note velocity channel : ℤ) (m : MidiOut) : MidiOut :=
  { m with sent := m.sent ++ [(now, MidiMsg.noteOn note velocity channel)] }

/-- `sendNoteOff`: a note-off message to the selected output. -/
def sendNoteOff (now : ℚ) (note channel : ℤ) (m : MidiOut) : MidiOut :=
  { m with sent := m.sent ++ [(now, MidiMsg.noteOff note channel)] }

/-- `sendControlChange`: a control-change message to the selected output. -/
def sendControlChange (now : ℚ) (controller value channel : ℤ) (m : MidiOut) : MidiOut :=
  { m with sent := m.sent ++ [(now, MidiMsg.controlChange controller value channel)] }

/-- `clearTimeout` on a pending note-off timer. -/
def clearNoteOffTimer (timeoutId : ℕ) (m : MidiOut) : MidiOut :=
  { m with pendingNoteOffs := m.pendingNoteOffs.filter (fun p => p.timerId ≠ timeoutId) }

/-- `playNote` called at time `now`: send note-on at once, cancel any pending
note-off timer recorded for `(channel, note)`, then schedule a fresh note-off
timer `duration` ms later under the same key. -/
def playNote (now : ℚ) (note velocity channel : ℤ) (duration : ℚ) (m : MidiOut) : MidiOut :=
  let m1 := sendNoteOn now note velocity channel m
  let noteKey : NoteKey := { channel := channel, note := note }
  let m2 :=
    match findNoteTimeout noteKey m1.noteOffTimeouts with
    | some existingTimeout => clearNoteOffTimer existingTimeout m1
    | none => m1
  let timeoutId := m2.nextTimerId
  { m2 with
    nextTimerId := timeoutId + 1
    pendingNoteOffs := m2.pendingNoteOffs ++ [{ timerId := timeoutId, dueTime := now + duration,
                                                note := note, channel := channel }]
    noteOffTimeouts := setNoteTimeout noteKey timeoutId m2.noteOffTimeouts }

/-- Body of the note-off `setTimeout` callback: send the note-off and remove
the map entry; the timer itself leaves the pending set when it fires. -/
def fireNoteOffTimer (p : PendingNoteOff) (m : MidiOut) : MidiOut :=
  let m1 := sendNoteOff p.dueTime p.note p.channel m
  { m1 with
    pendingNoteOffs := m1.pendingNoteOffs.filter (fun q => q.timerId ≠ p.timerId)
    noteOffTimeouts := deleteNoteTimeout { channel := p.channel, note := p.note } m1.noteOffTimeouts }

/-- Of two timers, the one due earlier (first wins ties, as in queue order). -/
def earlierTimer (p q : PendingNoteOff) : PendingNoteOff :=
  if q.dueTime < p.dueTime then q else p

/-- The earliest-due pending timer, if any. -/
def earliestPendingTimer : List PendingNoteOff → Option PendingNoteOff
  | [] => none
  | p :: ps => some (ps.foldl earlierTimer p)

/-- Fuel-bounded event-loop drain: repeatedly fire the earliest pending timer. -/
def drainTimersAux : ℕ → MidiOut → MidiOut
  | 0, m => m
  | fuel + 1, m =>
    match earliestPendingTimer m.pendingNoteOffs with
    | none => m
    | some p => drainTimersAux fuel (fireNoteOffTimer p m)

/-- Let the event loop run until no note-off timer is pending: every pending
timer fires at its due time; cancelled timers never fire. -/
def drainTimers (m : MidiOut) : MidiOut := drainTimersAux m.pendingNoteOffs.length m

/-- Consistency of the timer bookkeeping: every pending note-off timer is the
one recorded in `noteOffTimeouts` under its `(channel, note)` key, and its id
is below the id counter. -/
def MidiOutWF (m : MidiOut) : Prop :=
  ∀ p ∈ m.pendingNoteOffs,
    p.timerId < m.nextTimerId ∧
    findNoteTimeout { channel := p.channel, note := p.note } m.noteOffTimeouts = some p.timerId

/-- Predicate picking note-off entries out of the sent log. -/
def isNoteOffMsg : ℚ × MidiMsg → Bool
  | (_, MidiMsg.noteOff _ _) => true
  | _ => false

/-! External-clock BPM estimator (the MIDI-clock part of MidiService). -/

/-- Clock-tracking state of `MidiService`: tick counter, last tick timestamp,
rolling window of inter-tick intervals, receive flag, BPM estimate, and the
due time of the active 2000 ms watchdog timer. -/
structure MidiClockEstimator where
  clockCount : ℕ
  lastClockTime : ℚ
  clockTimes : List ℚ
  isReceivingClock : Bool
  detectedBPM : ℤ
  clockTimeout : Option ℚ
deriving DecidableEq, Repr

/-- Estimator state at service construction. -/
def initialMidiClockEstimator : MidiClockEstimator :=
  { clockCount := 0, lastClockTime := 0, clockTimes := [], isReceivingClock := false,
    detectedBPM := 0, clockTimeout := none }

/-- `handleMidiClock` at time `now`: push the inter-tick interval (skipped on
the first tick), cap the window at 24 entries dropping the oldest, recompute
the BPM once the window holds 24 entries, mark receiving, and re-arm the
2000 ms watchdog. -/
def handleMidiClock (now : ℚ) (s : MidiClockEstimator) : MidiClockEstimator :=
  let updated :=
    if 0 < s.lastClockTime then
      let pushed := s.clockTimes ++ [now - s.lastClockTime]
      let window := if 24 < pushed.length then pushed.tail else pushed
      if 24 ≤ window.length then
        let avgInterval := window.foldl (· + ·) 0 / (window.length : ℚ)
        (window, jsRound (60000 / (avgInterval * 24)))
      else (window, s.detectedBPM)
    else (s.clockTimes, s.detectedBPM)
  { clockCount := s.clockCount + 1
    lastClockTime := now
    clockTimes := updated.1
    isReceivingClock := true
    detectedBPM := updated.2
    clockTimeout := some (now + 2000) }

/-- Body of the watchdog `setTimeout` callback (2000 ms with no tick): clear
the receive flag and the BPM estimate. -/
def clockWatchdogFire (s : MidiClockEstimator) : MidiClockEstimator :=
  { s with isReceivingClock := false, detectedBPM := 0, clockTimeout := none }

/-- Feed a sequence of tick timestamps to the estimator. -/
def runMidiClockTicks (ticks : List ℚ) (s : MidiClockEstimator) : MidiClockEstimator :=
  ticks.foldl (fun acc t => handleMidiClock t acc) s

/-- Tick timestamps `t0, t0 + d, …, t0 + d * (n - 1)`. -/
def uniformTicks (t0 d : ℚ) (n : ℕ) : List ℚ :=
  (List.range n).map (fun (k : ℕ) => t0 + d * (k : ℚ))

/-! Pattern registry (MidiPatternService) and lab state (LabStateService). -/

/-- A `MidiNote` instance: id plus the note/velocity/channel signals. -/
structure MidiNoteInst where
  id : String
  note : ℤ
  velocity : ℤ
  channel : ℤ
deriving DecidableEq, Repr

/-- `MidiPatternService.deleteNoteById`: filter the instance out of the list. -/
def deleteNoteById (noteId : String) (notes : List MidiNoteInst) : List MidiNoteInst :=
  notes.filter (fun n => n.id ≠ noteId)

/-- `MidiNote.delete()`: invokes the registered `onDelete` callback, which only
removes the instance from the pattern service's list; the MIDI service state
(pending note-off timers included) is not consulted. -/
def midiNoteDelete (inst : MidiNoteInst) (sys : List MidiNoteInst × MidiOut) :
    List MidiNoteInst × MidiOut :=
  (deleteNoteById inst.id sys.1, sys.2)

/-- A note row of the lab state (`LabNoteConfig`), fields relevant to playback. -/
structure LabNoteConfig where
  id : String
  enabled : Bool
  note : ℤ
  velocity : ℤ
  channel : ℤ
deriving DecidableEq, Repr

/-- A control row of the lab state (`LabControlConfig`). -/
structure LabControlConfig where
  id : String
  enabled : Bool
  controller : ℤ
  value : ℤ
  channel : ℤ
deriving DecidableEq, Repr

/-- `LabStateService.removeNoteConfig`: filter the config out of the list. -/
def removeNoteConfig (noteId : String) (noteConfigs : List LabNoteConfig) : List LabNoteConfig :=
  noteConfigs.filter (fun c => c.id ≠ noteId)

/-! Playback service (PlaybackService). -/

/-- Clock source selected in the settings. -/
inductive ClockSource where
  | internal
  | external
deriving DecidableEq, Repr

/-- The `_playbackState` signal of `PlaybackService`. -/
structure PlaybackState where
  isPlaying : Bool
  isEnabled : Bool
  lastTriggerTime : Option ℚ
deriving DecidableEq, Repr

/-- Payload of the `playbackTrigger` custom event. -/
structure PlaybackTriggerEvent where
  timestamp : ℚ
  noteCount : ℕ
  controlCount : ℕ
deriving DecidableEq, Repr

/-- Quarter-note gating inside the clock-pulse effect:
`(pulse.subdivision - 1) % max(1, subdivision / 4) === 0`. -/
def shouldTriggerOnPulse (pulse : ClockPulse) (subdivision : ℚ) : Bool :=
  decide (jsMod (pulse.subdivision - 1) (max 1 (subdivision / 4)) = 0)

/-- Condition of the clock-pulse effect in `setupClockPulseListener`: a pulse
exists, the source is internal, the clock is running, playback is playing and
enabled, and the pulse lands on a quarter-note boundary. -/
def clockPulseListenerFires (lastPulse : Option ClockPulse) (source : ClockSource)
    (clockRunning isPlaying isEnabled : Bool) (subdivision : ℚ) : Bool :=
  match lastPulse, source with
  | some pulse, ClockSource.internal =>
      clockRunning && isPlaying && isEnabled && shouldTriggerOnPulse pulse subdivision
  | _, _ => false

/-- `triggerPlayback` at time `now`: stamp `lastTriggerTime`, play every enabled
note config (100 ms duration), send every enabled control config, and dispatch
one `playbackTrigger` event with the counts. -/
def triggerPlayback (now : ℚ) (noteConfigs : List LabNoteConfig)
    (controlConfigs : List LabControlConfig) (s : PlaybackState) (m : MidiOut) :
    PlaybackState × MidiOut × List PlaybackTriggerEvent :=
  let s1 := { s with lastTriggerTime := some now }
  let enabledNoteConfigs := noteConfigs.filter (fun c => c.enabled)
  let m1 := enabledNoteConfigs.foldl
    (fun acc c => playNote now c.note c.velocity c.channel 100 acc) m
  let enabledControlConfigs := controlConfigs.filter (fun c => c.enabled)
  let m2 := enabledControlConfigs.foldl
    (fun acc c => sendControlChange now c.controller c.value c.channel acc) m1
  (s1, m2, [{ timestamp := now, noteCount := enabledNoteConfigs.length,
              controlCount := enabledControlConfigs.length }])

/-- `manualTrigger`: runs `triggerPlayback` only when playback is enabled. -/
def manualTrigger (now : ℚ) (noteConfigs : List LabNoteConfig)
    (controlConfigs : List LabControlConfig) (s : PlaybackState) (m : MidiOut) :
    PlaybackState × MidiOut × List PlaybackTriggerEvent :=
  if s.isEnabled then triggerPlayback now noteConfigs controlConfigs s m
  else (s, m, [])

/-! Concrete traces used to exhibit behaviours. -/

/-- Engine started at t = 0 with the default config, after the pulse callback
fired at t = 1500 (with 120 BPM the subdivision interval is 125 ms). -/
def pulsedEngine : ClockEngine := generatePulse 120 1500 (startInternalClock 0 initialClockEngine)

/-- The same engine after `setBeatsPerBar 2` while the position was advanced. -/
def shrunkEngine : ClockEngine :=
  { pulsedEngine with clockState := setBeatsPerBar 2 pulsedEngine.clockState }

/-- A registry instance matching the note sounded in the deletion scenario. -/
def soundingInst : MidiNoteInst := { id := "note-1", note := 60, velocity := 100, channel := 0 }

/-! Helper lemmas about the JavaScript arithmetic embedding. -/

theorem jsTrunc_of_nonneg {q : ℚ} (h : 0 ≤ q) : jsTrunc q = ⌊q⌋ := by
  unfold jsTrunc
  rw [if_neg (not_lt.mpr h)]

theorem jsMod_eq_fract {a b : ℚ} (ha : 0 ≤ a) (hb : 0 < b) :
    jsMod a b = b * Int.fract (a / b) := by
  unfold jsMod
  rw [jsTrunc_of_nonneg (div_nonneg ha hb.le), Int.fract, mul_sub,
    mul_div_cancel₀ a hb.ne']

theorem jsMod_nonneg {a b : ℚ} (ha : 0 ≤ a) (hb : 0 < b) : 0 ≤ jsMod a b := by
  rw [jsMod_eq_fract ha hb]
  exact mul_nonneg hb.le (Int.fract_nonneg _)

theorem jsMod_lt {a b : ℚ} (ha : 0 ≤ a) (hb : 0 < b) : jsMod a b < b := by
  rw [jsMod_eq_fract ha hb]
  calc b * Int.fract (a / b) < b * 1 := by
        exact mul_lt_mul_of_pos_left (Int.fract_lt_one _) hb
    _ = b := mul_one b

theorem floor_intCast_div_int (a b : ℤ) (hb : 0 < b) : ⌊(a : ℚ) / (b : ℚ)⌋ = a / b := by
  have h := Rat.floor_intCast_div_natCast a b.toNat
  have hq : ((b.toNat : ℕ) : ℚ) = (b : ℚ) := by exact_mod_cast Int.toNat_of_nonneg hb.le
  have hz : ((b.toNat : ℕ) : ℤ) = b := Int.toNat_of_nonneg hb.le
  rw [hq, hz] at h
  exact h

theorem jsMod_intCast {a b : ℤ} (ha : 0 ≤ a) (hb : 0 < b) :
    jsMod (a : ℚ) (b : ℚ) = ((a % b : ℤ) : ℚ) := by
  have hbq : (0 : ℚ) < (b : ℚ) := by exact_mod_cast hb
  have haq : (0 : ℚ) ≤ (a : ℚ) := by exact_mod_cast ha
  unfold jsMod
  rw [jsTrunc_of_nonneg (div_nonneg haq hbq.le), floor_intCast_div_int a b hb,
    Int.emod_def]
  push_cast
  ring

/-! Bounds on the timing signals. -/

theorem sixty_le_millisecondsPerBeat (bpm : ℚ) : 60 ≤ millisecondsPerBeat bpm := by
  unfold millisecondsPerBeat
  split
  · norm_num
  · next h =>
    push_neg at h
    obtain ⟨h0, h1⟩ := h
    rw [le_div_iff₀ h0]
    linarith

theorem five_le_millisecondsPerSubdivision (subdivision bpm : ℚ) :
    5 ≤ millisecondsPerSubdivision subdivision (millisecondsPerBeat bpm) := by
  have h60 := sixty_le_millisecondsPerBeat bpm
  unfold millisecondsPerSubdivision
  split
  · linarith
  · dsimp only
    split
    · norm_num
    · next h => exact not_lt.mp h

/-! Structural lemmas about `generatePulse` and the scheduling loop. -/

theorem generatePulse_startTime (bpm now : ℚ) (e : ClockEngine) :
    (generatePulse bpm now e).startTime = e.startTime := by
  unfold generatePulse
  dsimp only
  split
  · rfl
  · rfl

theorem generatePulse_beatsPerBar (bpm now : ℚ) (e : ClockEngine) :
    (generatePulse bpm now e).clockState.beatsPerBar = e.clockState.beatsPerBar := by
  unfold generatePulse
  dsimp only
  split
  · rfl
  · dsimp only
    split
    · rfl
    · rfl

theorem generatePulse_subdivision (bpm now : ℚ) (e : ClockEngine) :
    (generatePulse bpm now e).clockState.subdivision = e.clockState.subdivision := by
  unfold generatePulse
  dsimp only
  split
  · rfl
  · dsimp only
    split
    · rfl
    · rfl

theorem generatePulse_isRunning (bpm now : ℚ) (e : ClockEngine) :
    (generatePulse bpm now e).clockState.isRunning = e.clockState.isRunning := by
  unfold generatePulse
  dsimp only
  split
  · rfl
  · dsimp only
    split
    · rfl
    · rfl

theorem runPulses_startTime (bpm : ℚ) (times : List ℚ) (e : ClockEngine) :
    (runPulses bpm e times).startTime = e.startTime := by
  induction times generalizing e with
  | nil => rfl
  | cons t ts ih =>
    show (runPulses bpm _ ts).startTime = _
    rw [ih]
    dsimp only
    split
    · exact generatePulse_startTime bpm t e
    · rfl

theorem runPulses_beatsPerBar (bpm : ℚ) (times : List ℚ) (e : ClockEngine) :
    (runPulses bpm e times).clockState.beatsPerBar = e.clockState.beatsPerBar := by
  induction times generalizing e with
  | nil => rfl
  | cons t ts ih =>
    show (runPulses bpm _ ts).clockState.beatsPerBar = _
    rw [ih]
    dsimp only
    split
    · exact generatePulse_beatsPerBar bpm t e
    · rfl

theorem runPulses_subdivision (bpm : ℚ) (times : List ℚ) (e : ClockEngine) :
    (runPulses bpm e times).clockState.subdivision = e.clockState.subdivision := by
  induction times generalizing e with
  | nil => rfl
  | cons t ts ih =>
    show (runPulses bpm _ ts).clockState.subdivision = _
    rw [ih]
    dsimp only
    split
    · exact generatePulse_subdivision bpm t e
    · rfl

theorem runPulses_isRunning (bpm : ℚ) (times : List ℚ) (e : ClockEngine) :
    (runPulses bpm e times).clockState.isRunning = e.clockState.isRunning := by
  induction times generalizing e with
  | nil => rfl
  | cons t ts ih =>
    show (runPulses bpm _ ts).clockState.isRunning = _
    rw [ih]
    dsimp only
    split
    · exact generatePulse_isRunning bpm t e
    · rfl

/-! Position arithmetic of `generatePulse`. -/

theorem generatePulse_lastPulse (bpm now : ℚ) (e : ClockEngine) (B S : ℤ)
    (hB : e.clockState.beatsPerBar = (B : ℚ)) (hB1 : 1 ≤ B)
    (hS : e.clockState.subdivision = ((4 * S : ℤ) : ℚ)) (hS1 : 1 ≤ S)
    (hnow : e.startTime ≤ now) :
    (generatePulse bpm now e).lastPulse =
      some { timestamp := now
             beat := ((⌊(now - e.startTime) /
                 millisecondsPerSubdivision e.clockState.subdivision (millisecondsPerBeat bpm)⌋
                 / S % B + 1 : ℤ) : ℚ)
             bar := ((⌊(now - e.startTime) /
                 millisecondsPerSubdivision e.clockState.subdivision (millisecondsPerBeat bpm)⌋
                 / (S * B) + 1 : ℤ) : ℚ)
             subdivision := ((⌊(now - e.startTime) /
                 millisecondsPerSubdivision e.clockState.subdivision (millisecondsPerBeat bpm)⌋
                 % S + 1 : ℤ) : ℚ) } := by
  have hS0 : (0 : ℤ) < S := hS1
  have hB0 : (0 : ℤ) < B := hB1
  have hI5 : 5 ≤ millisecondsPerSubdivision e.clockState.subdivision (millisecondsPerBeat bpm) :=
    five_le_millisecondsPerSubdivision _ _
  have hI0 : (0 : ℚ) < millisecondsPerSubdivision e.clockState.subdivision (millisecondsPerBeat bpm) := by
    linarith
  have hspb : e.clockState.subdivision / 4 = (S : ℚ) := by
    rw [hS]
    push_cast
    ring
  unfold generatePulse
  dsimp only
  rw [if_neg (not_lt.mpr hI5)]
  dsimp only
  rw [hspb, hB]
  set t : ℤ :=
    ⌊(now - e.startTime) / millisecondsPerSubdivision e.clockState.subdivision (millisecondsPerBeat bpm)⌋
    with ht
  have ht0 : 0 ≤ t := Int.floor_nonneg.mpr (div_nonneg (by linarith) hI0.le)
  have htS0 : 0 ≤ t / S := Int.ediv_nonneg ht0 hS0.le
  have hSB0 : (0 : ℤ) < S * B := mul_pos hS0 hB0
  rw [show ((S : ℚ) * (B : ℚ)) = ((S * B : ℤ) : ℚ) by push_cast; ring]
  rw [floor_intCast_div_int t S hS0, floor_intCast_div_int t (S * B) hSB0,
    jsMod_intCast ht0 hS0, jsMod_intCast htS0 hB0]
  push_cast
  rfl

/-- C1: for the internal clock with fixed bpm and subdivision, the pulse
emitted by a firing at time `now` carries exactly the position computed from
`t = floor((now - startTime) / msPerSubdivision)` with `spb = subdivision / 4`:
subdivision `(t % spb) + 1`, beat `(t / spb % beatsPerBar) + 1`, and bar
`t / (spb * beatsPerBar) + 1` — for an arbitrary history `times` of earlier
callback firings (any scheduling jitter, any number of callbacks), so the
position is a pure function of the elapsed time. -/
theorem internalClock_position_pure (bpm : ℚ) (e : ClockEngine) (times : List ℚ) (now : ℚ)
    (B S : ℤ) (hB : e.clockState.beatsPerBar = (B : ℚ)) (hB1 : 1 ≤ B)
    (hS : e.clockState.subdivision = ((4 * S : ℤ) : ℚ)) (hS1 : 1 ≤ S)
    (hrun : e.clockState.isRunning = true) (hnow : e.startTime ≤ now) :
    (generatePulse bpm now (runPulses bpm e times)).lastPulse =
      some { timestamp := now
             beat := ((⌊(now - e.startTime) /
                 millisecondsPerSubdivision e.clockState.subdivision (millisecondsPerBeat bpm)⌋
                 / S % B + 1 : ℤ) : ℚ)
             bar := ((⌊(now - e.startTime) /
                 millisecondsPerSubdivision e.clockState.subdivision (millisecondsPerBeat bpm)⌋
                 / (S * B) + 1 : ℤ) : ℚ)
             subdivision := ((⌊(now - e.startTime) /
                 millisecondsPerSubdivision e.clockState.subdivision (millisecondsPerBeat bpm)⌋
                 % S + 1 : ℤ) : ℚ) } := by
  have h1 := runPulses_startTime bpm times e
  have h2 := runPulses_beatsPerBar bpm times e
  have h3 := runPulses_subdivision bpm times e
  have key := generatePulse_lastPulse bpm now (runPulses bpm e times) B S
    (h2.trans hB) hB1 (h3.trans hS) hS1 (by rw [h1]; exact hnow)
  rw [h1, h3] at key
  exact key

/-- Witness for C1: engine started at t = 0 (120 BPM, subdivision 16,
4 beats per bar), three jittered callback firings, then a firing at t = 1500
(t = 12 subdivisions): the pulse reads subdivision 1, beat 4, bar 1. -/
theorem internalClock_position_pure_witness :
    (generatePulse 120 1500
        (runPulses 120 (startInternalClock 0 initialClockEngine) [130, 260, 372])).lastPulse =
      some { timestamp := 1500, beat := 4, bar := 1, subdivision := 1 } := by
  have h := internalClock_position_pure 120 (startInternalClock 0 initialClockEngine)
    [130, 260, 372] 1500 4 4
    (by norm_num [startInternalClock, initialClockEngine, initialClockState])
    (by norm_num)
    (by norm_num [startInternalClock, initialClockEngine, initialClockState])
    (by norm_num)
    (by norm_num [startInternalClock, initialClockEngine, initialClockState])
    (by norm_num [startInternalClock, initialClockEngine, initialClockState])
  refine h.trans ?_
  norm_num [startInternalClock, initialClockEngine, initialClockState,
    millisecondsPerSubdivision, millisecondsPerBeat]

/-- C6 counterexample: with 120 BPM and subdivision 16 the subdivision
interval is 125 ms; a firing 118 ms after the last pulse leaves 7 ms to the
boundary, and the code schedules `max 10 7 = 10` ms, not `max 5 7 = 7` ms as
the claim states. -/
theorem nextPulseDelay_five_floor_counterexample :
    nextPulseDelay 118 0 (millisecondsPerSubdivision 16 (millisecondsPerBeat 120)) ≠
      max 5 (millisecondsPerSubdivision 16 (millisecondsPerBeat 120) -
        jsMod (118 - 0) (millisecondsPerSubdivision 16 (millisecondsPerBeat 120))) := by
  norm_num [nextPulseDelay, millisecondsPerSubdivision, millisecondsPerBeat, jsMod, jsTrunc,
    max_def]

/-- C6 amended: after each internal-clock firing the next firing is scheduled
at `delay = max(10, msPerSubdivision - (timeSinceLastPulse mod msPerSubdivision))`
milliseconds — a 10 ms floor, not a 5 ms floor (the later `max … 5` and the
`interval < 5` override are unreachable because `msPerSubdivision` is already
clamped to at least 5 ms). -/
theorem nextPulseDelay_ten_floor (bpm subdivision now lastPulseTime : ℚ) :
    nextPulseDelay now lastPulseTime (millisecondsPerSubdivision subdivision (millisecondsPerBeat bpm)) =
      max 10 (millisecondsPerSubdivision subdivision (millisecondsPerBeat bpm) -
        jsMod (now - lastPulseTime) (millisecondsPerSubdivision subdivision (millisecondsPerBeat bpm))) := by
  have h5 := five_le_millisecondsPerSubdivision subdivision bpm
  unfold nextPulseDelay
  dsimp only
  rw [if_neg (not_lt.mpr h5)]
  rw [max_eq_left (le_trans (by norm_num : (5 : ℚ) ≤ 10) (le_max_right _ 10)), max_comm]

/-- C8: `setBeatsPerBar` ignores every value outside `[1, 16]` and
`setSubdivision` ignores every value outside `[4, 8, 16, 32]`; in particular
`setBeatsPerBar 0`, `setBeatsPerBar 17` and `setSubdivision 7` leave the clock
state unchanged (and, being total functions, raise no error). -/
theorem setters_ignore_invalid (s : ClockState) (q r : ℚ) (hq : q < 1 ∨ 16 < q)
    (hr : r ≠ 4 ∧ r ≠ 8 ∧ r ≠ 16 ∧ r ≠ 32) :
    setBeatsPerBar q s = s ∧ setSubdivision r s = s ∧
    setBeatsPerBar 0 s = s ∧ setBeatsPerBar 17 s = s ∧ setSubdivision 7 s = s := by
  refine ⟨?_, ?_, ?_, ?_, ?_⟩
  · unfold setBeatsPerBar
    rw [if_neg]
    rintro ⟨h1, h2⟩
    rcases hq with h | h
    · linarith
    · linarith
  · unfold setSubdivision
    rw [if_neg]
    rintro (h | h | h | h)
    · exact hr.1 h
    · exact hr.2.1 h
    · exact hr.2.2.1 h
    · exact hr.2.2.2 h
  · unfold setBeatsPerBar
    rw [if_neg]
    rintro ⟨h1, h2⟩
    norm_num at h1
  · unfold setBeatsPerBar
    rw [if_neg]
    rintro ⟨h1, h2⟩
    norm_num at h2
  · unfold setSubdivision
    rw [if_neg]
    rintro (h | h | h | h) <;> norm_num at h

/-- Witness for C8: instantiated at the default clock state with the invalid
inputs 0 and 7. -/
theorem setters_ignore_invalid_witness :
    ((0 : ℚ) < 1 ∨ 16 < (0 : ℚ)) ∧
    (setBeatsPerBar 0 initialClockState = initialClockState ∧
      setSubdivision 7 initialClockState = initialClockState ∧
      setBeatsPerBar 0 initialClockState = initialClockState ∧
      setBeatsPerBar 17 initialClockState = initialClockState ∧
      setSubdivision 7 initialClockState = initialClockState) :=
  ⟨Or.inl (by norm_num),
    setters_ignore_invalid initialClockState 0 7 (Or.inl (by norm_num)) (by norm_num)⟩

/-- C10: with playback disabled, `manualTrigger` sends no MIDI message,
dispatches no `playbackTrigger` event, and leaves both the playback state
(including `lastTriggerTime`) and the MIDI service state untouched. -/
theorem manualTrigger_noop_when_disabled (now : ℚ) (noteConfigs : List LabNoteConfig)
    (controlConfigs : List LabControlConfig) (playing : Bool) (t : Option ℚ) (m : MidiOut) :
    manualTrigger now noteConfigs controlConfigs
        { isPlaying := playing, isEnabled := false, lastTriggerTime := t } m =
      ({ isPlaying := playing, isEnabled := false, lastTriggerTime := t }, m, []) := by
  simp [manualTrigger]

/-- C7: while dispatch is active (internal source, clock running, playback
playing and enabled), a pulse triggers the dispatcher exactly when
`(pulse.subdivision - 1) mod max(1, subdivision / 4) = 0`; with subdivision 16,
of four consecutive pulses carrying subdivision values 1, 2, 3, 4, exactly the
pulse with value 1 dispatches. -/
theorem pulse_quarterNote_gating :
    (∀ (pulse : ClockPulse) (subdivision : ℚ),
      clockPulseListenerFires (some pulse) ClockSource.internal true true true subdivision = true ↔
        jsMod (pulse.subdivision - 1) (max 1 (subdivision / 4)) = 0) ∧
    ([(1 : ℚ), 2, 3, 4].filter
        (fun v => clockPulseListenerFires
          (some { timestamp := 0, beat := 1, bar := 1, subdivision := v })
          ClockSource.internal true true true 16) = [1]) := by
  have hiff : ∀ (pulse : ClockPulse) (subdivision : ℚ),
      clockPulseListenerFires (some pulse) ClockSource.internal true true true subdivision = true ↔
        jsMod (pulse.subdivision - 1) (max 1 (subdivision / 4)) = 0 := by
    intro pulse subdivision
    unfold clockPulseListenerFires shouldTriggerOnPulse
    simp
  refine ⟨hiff, ?_⟩
  have h1 : clockPulseListenerFires
      (some { timestamp := 0, beat := 1, bar := 1, subdivision := (1 : ℚ) })
      ClockSource.internal true true true 16 = true := by
    rw [hiff]
    norm_num [jsMod, jsTrunc, max_def]
  have h2 : clockPulseListenerFires
      (some { timestamp := 0, beat := 1, bar := 1, subdivision := (2 : ℚ) })
      ClockSource.internal true true true 16 = false := by
    rw [Bool.eq_false_iff, Ne, hiff]
    norm_num [jsMod, jsTrunc, max_def]
  have h3 : clockPulseListenerFires
      (some { timestamp := 0, beat := 1, bar := 1, subdivision := (3 : ℚ) })
      ClockSource.internal true true true 16 = false := by
    rw [Bool.eq_false_iff, Ne, hiff]
    norm_num [jsMod, jsTrunc, max_def]
  have h4 : clockPulseListenerFires
      (some { timestamp := 0, beat := 1, bar := 1, subdivision := (4 : ℚ) })
      ClockSource.internal true true true 16 = false := by
    rw [Bool.eq_false_iff, Ne, hiff]
    norm_num [jsMod, jsTrunc, max_def]
  simp [List.filter_cons, h1, h2, h3, h4]

/-- C2: calling `playNote` for the same `(channel, note)` at t = 0 and t = 50,
each with a 100 ms duration, sends exactly one note-off, at t = 150 (from the
timer armed by the second call, id 1); the note-off armed by the first call
(due t = 100) never fires.  In general, on a well-formed service state every
`playNote` call removes any pending note-off timer for its `(channel, note)`
key before arming the new one, leaving the new timer as the only pending
note-off for that key. -/
theorem playNote_retrigger_single_noteOff :
    (drainTimers (playNote 50 60 100 0 100 (playNote 0 60 100 0 100 initialMidiOut))).sent =
      [(0, MidiMsg.noteOn 60 100 0), (50, MidiMsg.noteOn 60 100 0),
        (150, MidiMsg.noteOff 60 0)] ∧
    (playNote 50 60 100 0 100 (playNote 0 60 100 0 100 initialMidiOut)).pendingNoteOffs =
      [{ timerId := 1, dueTime := 150, note := 60, channel := 0 }] ∧
    (∀ (m : MidiOut) (now : ℚ) (note velocity channel : ℤ) (duration : ℚ),
      MidiOutWF m →
      (playNote now note velocity channel duration m).pendingNoteOffs.filter
          (fun p => p.channel == channel && p.note == note) =
        [{ timerId := m.nextTimerId, dueTime := now + duration,
           note := note, channel := channel }]) := by
  have hA : playNote 0 60 100 0 100 initialMidiOut =
      { nextTimerId := 1,
        pendingNoteOffs := [{ timerId := 0, dueTime := 100, note := 60, channel := 0 }],
        noteOffTimeouts := [({ channel := 0, note := 60 }, 0)],
        sent := [(0, MidiMsg.noteOn 60 100 0)] } := by
    norm_num [playNote, sendNoteOn, initialMidiOut, findNoteTimeout, setNoteTimeout,
      clearNoteOffTimer]
  have hB : playNote 50 60 100 0 100 (playNote 0 60 100 0 100 initialMidiOut) =
      { nextTimerId := 2,
        pendingNoteOffs := [{ timerId := 1, dueTime := 150, note := 60, channel := 0 }],
        noteOffTimeouts := [({ channel := 0, note := 60 }, 1)],
        sent := [(0, MidiMsg.noteOn 60 100 0), (50, MidiMsg.noteOn 60 100 0)] } := by
    rw [hA]
    norm_num [playNote, sendNoteOn, findNoteTimeout, setNoteTimeout, clearNoteOffTimer,
      List.filter_cons]
  refine ⟨?_, ?_, ?_⟩
  · rw [hB]
    norm_num [drainTimers, drainTimersAux, earliestPendingTimer, fireNoteOffTimer,
      sendNoteOff, deleteNoteTimeout, List.filter_cons]
  · rw [hB]
  · intro m now note velocity channel duration hwf
    unfold playNote sendNoteOn clearNoteOffTimer
    dsimp only
    rcases hfind : findNoteTimeout { channel := channel, note := note } m.noteOffTimeouts with
      _ | tid
    · dsimp only
      rw [List.filter_append]
      have hnil : m.pendingNoteOffs.filter
          (fun p => p.channel == channel && p.note == note) = [] := by
        rw [List.filter_eq_nil_iff]
        intro p hp hkey
        simp only [Bool.and_eq_true, beq_iff_eq] at hkey
        have hlook := (hwf p hp).2
        rw [hkey.1, hkey.2, hfind] at hlook
        exact Option.noConfusion hlook
      rw [hnil]
      simp
    · dsimp only
      rw [List.filter_append, List.filter_filter]
      have hnil : m.pendingNoteOffs.filter
          (fun p => (p.channel == channel && p.note == note) &&
            decide (p.timerId ≠ tid)) = [] := by
        rw [List.filter_eq_nil_iff]
        intro p hp hkey
        simp only [Bool.and_eq_true, beq_iff_eq, decide_eq_true_eq] at hkey
        have hlook := (hwf p hp).2
        rw [hkey.1.1, hkey.1.2, hfind] at hlook
        exact hkey.2 (Option.some.inj hlook.symm)
      rw [hnil]
      simp

/-- Witness for C2's general cancellation clause: the empty service state is
well formed, and a `playNote` there leaves exactly the newly armed timer for
its key. -/
theorem playNote_retrigger_single_noteOff_witness :
    MidiOutWF initialMidiOut ∧
    (playNote 0 60 100 0 100 initialMidiOut).pendingNoteOffs.filter
        (fun p => p.channel == 0 && p.note == 60) =
      [{ timerId := initialMidiOut.nextTimerId, dueTime := 0 + 100,
         note := 60, channel := 0 }] :=
  ⟨by simp [MidiOutWF, initialMidiOut],
    playNote_retrigger_single_noteOff.2.2 initialMidiOut 0 60 100 0 100
      (by simp [MidiOutWF, initialMidiOut])⟩

/-! Estimator lemmas. -/

theorem uniformTicks_succ (t0 d : ℚ) (n : ℕ) :
    uniformTicks t0 d (n + 1) = uniformTicks t0 d n ++ [t0 + d * n] := by
  unfold uniformTicks
  rw [List.range_succ, List.map_append]
  rfl

theorem runMidiClockTicks_append_single (l : List ℚ) (x : ℚ) (s : MidiClockEstimator) :
    runMidiClockTicks (l ++ [x]) s = handleMidiClock x (runMidiClockTicks l s) := by
  unfold runMidiClockTicks
  rw [List.foldl_append]
  rfl

theorem foldl_add_replicate (k : ℕ) (x : ℚ) : ∀ init : ℚ,
    (List.replicate k x).foldl (· + ·) init = init + k * x := by
  induction k with
  | zero => intro init; simp
  | succ k ih =>
    intro init
    rw [List.replicate_succ, List.foldl_cons, ih]
    push_cast
    ring

theorem runMidiClockTicks_uniform (t0 d : ℚ) (h0 : 0 < t0) (hd : 0 < d) :
    ∀ n : ℕ, 1 ≤ n →
    runMidiClockTicks (uniformTicks t0 d n) initialMidiClockEstimator =
      { clockCount := n
        lastClockTime := t0 + d * ((n - 1 : ℕ) : ℚ)
        clockTimes := List.replicate (min (n - 1) 24) d
        isReceivingClock := true
        detectedBPM := if 25 ≤ n then jsRound (60000 / (d * 24)) else 0
        clockTimeout := some (t0 + d * ((n - 1 : ℕ) : ℚ) + 2000) } := by
  intro n
  induction n with
  | zero => intro h; exact absurd h (by norm_num)
  | succ n ih =>
    intro _
    rcases Nat.eq_zero_or_pos n with hn0 | hn1
    · subst hn0
      show runMidiClockTicks (uniformTicks t0 d 1) initialMidiClockEstimator = _
      rw [show (1 : ℕ) = 0 + 1 from rfl, uniformTicks_succ, runMidiClockTicks_append_single]
      simp [uniformTicks, runMidiClockTicks, handleMidiClock, initialMidiClockEstimator]
    · rw [uniformTicks_succ, runMidiClockTicks_append_single, ih hn1]
      have hlast : (0 : ℚ) < t0 + d * ((n - 1 : ℕ) : ℚ) := by
        have : (0 : ℚ) ≤ ((n - 1 : ℕ) : ℚ) := Nat.cast_nonneg _
        nlinarith
      have hinterval : t0 + d * (n : ℚ) - (t0 + d * ((n - 1 : ℕ) : ℚ)) = d := by
        rw [Nat.cast_sub hn1]
        push_cast
        ring
      unfold handleMidiClock
      rw [if_pos hlast]
      dsimp only
      rw [hinterval, ← List.replicate_succ']
      have hmin1 : min (n - 1) 24 + 1 = min n 25 := by omega
      rw [hmin1, List.length_replicate]
      have hcast : ((n + 1 - 1 : ℕ) : ℚ) = (n : ℚ) := by norm_num
      rcases le_or_lt n 24 with h24 | h24
      · have hw : ¬ 24 < min n 25 := by omega
        rw [if_neg hw, List.length_replicate]
        have hminn : min n 25 = n := by omega
        rw [hminn]
        rcases Nat.lt_or_ge n 24 with hlt | hge
        · have : ¬ 24 ≤ n := by omega
          rw [if_neg this]
          have h25n : ¬ 25 ≤ n := by omega
          have h25n1 : ¬ 25 ≤ n + 1 := by omega
          rw [if_neg h25n, if_neg h25n1]
          have : min (n + 1 - 1) 24 = n := by omega
          rw [this, hcast]
        · have hn24 : n = 24 := by omega
          subst hn24
          norm_num [foldl_add_replicate]
      · have hw : 24 < min n 25 := by omega
        rw [if_pos hw, List.tail_replicate, List.length_replicate]
        have hm : min n 25 - 1 = 24 := by omega
        rw [hm]
        have h24le : (24 : ℕ) ≤ 24 := le_refl 24
        rw [if_pos h24le]
        have h25n : 25 ≤ n := by omega
        have h25n1 : 25 ≤ n + 1 := by omega
        rw [if_pos h25n1]
        have : min (n + 1 - 1) 24 = 24 := by omega
        rw [this, hcast]
        norm_num [foldl_add_replicate]

/-- C3 counterexample: feeding exactly 24 uniform ticks records only 23
intervals (none for the first tick), so the window has not filled and
`detectedBPM` is still 0, not 120 as the claim states. -/
theorem bpm_estimator_24_ticks_counterexample :
    (runMidiClockTicks (uniformTicks 1000 (20833 / 1000) 24)
        initialMidiClockEstimator).detectedBPM ≠ 120 := by
  rw [runMidiClockTicks_uniform 1000 (20833 / 1000) (by norm_num) (by norm_num) 24 (by norm_num)]
  norm_num

/-- C3 amended: the first tick records no interval, so the 24-entry window
first fills at the 25th tick; feeding 25 ticks at uniform 20.833 ms spacing
yields `detectedBPM = 120`, while feeding 24 or fewer ticks leaves it 0. -/
theorem bpm_estimator_converges_at_25_ticks (t0 : ℚ) (h0 : 0 < t0) (n : ℕ) (hn : n ≤ 24) :
    (runMidiClockTicks (uniformTicks t0 (20833 / 1000) n)
        initialMidiClockEstimator).detectedBPM = 0 ∧
    (runMidiClockTicks (uniformTicks t0 (20833 / 1000) 25)
        initialMidiClockEstimator).detectedBPM = 120 := by
  constructor
  · rcases Nat.eq_zero_or_pos n with h | h
    · subst h
      rfl
    · rw [runMidiClockTicks_uniform t0 (20833 / 1000) h0 (by norm_num) n h]
      have : ¬ 25 ≤ n := by omega
      rw [if_neg this]
  · rw [runMidiClockTicks_uniform t0 (20833 / 1000) h0 (by norm_num) 25 (by norm_num)]
    norm_num [jsRound]

/-- Witness for C3's amended claim at `t0 = 1000`, `n = 24`. -/
theorem bpm_estimator_converges_witness :
    (0 : ℚ) < 1000 ∧
    ((runMidiClockTicks (uniformTicks 1000 (20833 / 1000) 24)
        initialMidiClockEstimator).detectedBPM = 0 ∧
      (runMidiClockTicks (uniformTicks 1000 (20833 / 1000) 25)
        initialMidiClockEstimator).detectedBPM = 120) :=
  ⟨by norm_num, bpm_estimator_converges_at_25_ticks 1000 (by norm_num) 24 (by norm_num)⟩

/-- C5 counterexample: after 25 uniform ticks the interval window holds 24
entries; the watchdog callback leaves the window untouched (it stays
non-empty), contrary to the claim that it clears the window. -/
theorem watchdog_keeps_window_counterexample :
    (clockWatchdogFire (runMidiClockTicks (uniformTicks 1000 (20833 / 1000) 25)
        initialMidiClockEstimator)).clockTimes ≠ [] := by
  show (runMidiClockTicks (uniformTicks 1000 (20833 / 1000) 25)
      initialMidiClockEstimator).clockTimes ≠ []
  rw [runMidiClockTicks_uniform 1000 (20833 / 1000) (by norm_num) (by norm_num) 25 (by norm_num)]
  simp

/-- C5 amended: each tick re-arms the watchdog for 2000 ms later; on expiry
the callback sets `isReceivingClock` to false and `detectedBPM` to 0, but it
does NOT clear the interval window or the last-tick time, so the next tick
after a silence pushes the stale gap interval into the old window instead of
starting the average from scratch. -/
theorem watchdog_resets_flags_only (s : MidiClockEstimator) (now : ℚ) :
    (clockWatchdogFire s).isReceivingClock = false ∧
    (clockWatchdogFire s).detectedBPM = 0 ∧
    (clockWatchdogFire s).clockTimes = s.clockTimes ∧
    (clockWatchdogFire s).lastClockTime = s.lastClockTime ∧
    (handleMidiClock now s).clockTimeout = some (now + 2000) ∧
    (0 < s.lastClockTime →
      (handleMidiClock now (clockWatchdogFire s)).clockTimes =
        (if 24 < (s.clockTimes ++ [now - s.lastClockTime]).length then
          (s.clockTimes ++ [now - s.lastClockTime]).tail
        else s.clockTimes ++ [now - s.lastClockTime])) := by
  refine ⟨rfl, rfl, rfl, rfl, rfl, ?_⟩
  intro hpos
  unfold handleMidiClock
  dsimp only [clockWatchdogFire]
  rw [if_pos hpos]
  split
  · split
    · rfl
    · rfl
  · split
    · rfl
    · rfl

/-- Witness for C5's amended claim: a state with one recorded interval and a
last tick at t = 100; the fresh tick at t = 3000 mixes the stale 2900 ms gap
into the old window. -/
theorem watchdog_resets_flags_witness :
    (0 : ℚ) < 100 ∧
    (handleMidiClock 3000 (clockWatchdogFire
        { clockCount := 2, lastClockTime := 100, clockTimes := [10],
          isReceivingClock := true, detectedBPM := 0,
          clockTimeout := some 2100 })).clockTimes = [10, 2900] := by
  constructor
  · norm_num
  · have h := (watchdog_resets_flags_only
      { clockCount := 2, lastClockTime := 100, clockTimes := [10],
        isReceivingClock := true, detectedBPM := 0,
        clockTimeout := some 2100 } 3000).2.2.2.2.2 (by norm_num)
    refine h.trans ?_
    norm_num

/-- C4 counterexample: with the note sounding (note-off timer armed at t = 0,
due t = 100), deleting the instance removes it from the registry but leaves
the timer pending and sends no immediate note-off — contrary to the claim that
`delete()` cancels the timer and forces a note-off. -/
theorem delete_leaves_noteOff_timer_counterexample :
    (midiNoteDelete soundingInst
        ([soundingInst], playNote 0 60 100 0 100 initialMidiOut)).1 = [] ∧
    (midiNoteDelete soundingInst
        ([soundingInst], playNote 0 60 100 0 100 initialMidiOut)).2.pendingNoteOffs =
      [{ timerId := 0, dueTime := 100, note := 60, channel := 0 }] ∧
    (midiNoteDelete soundingInst
        ([soundingInst], playNote 0 60 100 0 100 initialMidiOut)).2.sent.filter
      isNoteOffMsg = [] := by
  norm_num [midiNoteDelete, deleteNoteById, soundingInst, playNote, sendNoteOn, initialMidiOut,
    findNoteTimeout, setNoteTimeout, clearNoteOffTimer, isNoteOffMsg, List.filter_cons]

/-- C4 amended: `MidiNote.delete()` (through `deleteNoteById`) and
`LabStateService.removeNoteConfig` only remove the instance from their lists;
the MIDI service state is untouched, so a pending note-off timer is neither
cancelled nor fired early — it still fires at its original due time, which is
what eventually releases the note. -/
theorem delete_removes_registry_only :
    (∀ (inst : MidiNoteInst) (notes : List MidiNoteInst) (m : MidiOut),
      (midiNoteDelete inst (notes, m)).2 = m ∧
      (midiNoteDelete inst (notes, m)).1 = notes.filter (fun n => n.id ≠ inst.id)) ∧
    (∀ (noteId : String) (configs : List LabNoteConfig),
      removeNoteConfig noteId configs = configs.filter (fun c => c.id ≠ noteId)) ∧
    ((drainTimers (midiNoteDelete soundingInst
        ([soundingInst], playNote 0 60 100 0 100 initialMidiOut)).2).sent =
      [(0, MidiMsg.noteOn 60 100 0), (100, MidiMsg.noteOff 60 0)]) := by
  refine ⟨fun inst notes m => ⟨rfl, rfl⟩, fun noteId configs => rfl, ?_⟩
  norm_num [midiNoteDelete, deleteNoteById, soundingInst, playNote, sendNoteOn, initialMidiOut,
    findNoteTimeout, setNoteTimeout, clearNoteOffTimer, drainTimers, drainTimersAux,
    earliestPendingTimer, fireNoteOffTimer, sendNoteOff, deleteNoteTimeout, List.filter_cons]

/-! Beat and bar fields written by `generatePulse`. -/

theorem generatePulse_currentBeat (bpm now : ℚ) (e : ClockEngine)
    (h5 : ¬ millisecondsPerSubdivision e.clockState.subdivision (millisecondsPerBeat bpm) < 5) :
    (generatePulse bpm now e).clockState.currentBeat =
      jsMod ((⌊((⌊(now - e.startTime) /
          millisecondsPerSubdivision e.clockState.subdivision (millisecondsPerBeat bpm)⌋ : ℤ) : ℚ) /
          (e.clockState.subdivision / 4)⌋ : ℤ) : ℚ) e.clockState.beatsPerBar + 1 := by
  unfold generatePulse
  dsimp only
  rw [if_neg h5]
  dsimp only
  split
  · rfl
  · next h =>
    push_neg at h
    exact h.1

theorem generatePulse_currentBar (bpm now : ℚ) (e : ClockEngine)
    (h5 : ¬ millisecondsPerSubdivision e.clockState.subdivision (millisecondsPerBeat bpm) < 5) :
    (generatePulse bpm now e).clockState.currentBar =
      ((⌊((⌊(now - e.startTime) /
          millisecondsPerSubdivision e.clockState.subdivision (millisecondsPerBeat bpm)⌋ : ℤ) : ℚ) /
          (e.clockState.subdivision / 4 * e.clockState.beatsPerBar)⌋ : ℤ) : ℚ) + 1 := by
  unfold generatePulse
  dsimp only
  rw [if_neg h5]
  dsimp only
  split
  · rfl
  · next h =>
    push_neg at h
    exact h.2

theorem generatePulse_beat_bounds (bpm now : ℚ) (e : ClockEngine)
    (hbpb1 : 1 ≤ e.clockState.beatsPerBar)
    (hsub : e.clockState.subdivision = 4 ∨ e.clockState.subdivision = 8 ∨
      e.clockState.subdivision = 16 ∨ e.clockState.subdivision = 32)
    (hnow : e.startTime ≤ now) :
    1 ≤ (generatePulse bpm now e).clockState.currentBeat ∧
    (generatePulse bpm now e).clockState.currentBeat < e.clockState.beatsPerBar + 1 ∧
    1 ≤ (generatePulse bpm now e).clockState.currentBar := by
  have hI5 := five_le_millisecondsPerSubdivision e.clockState.subdivision bpm
  have h5 : ¬ millisecondsPerSubdivision e.clockState.subdivision (millisecondsPerBeat bpm) < 5 :=
    not_lt.mpr hI5
  have hI0 : (0 : ℚ) < millisecondsPerSubdivision e.clockState.subdivision (millisecondsPerBeat bpm) := by
    linarith
  have hspb0 : (0 : ℚ) < e.clockState.subdivision / 4 := by
    rcases hsub with h | h | h | h <;> rw [h] <;> norm_num
  have hbpb0 : (0 : ℚ) < e.clockState.beatsPerBar := by linarith
  have hT0 : (0 : ℚ) ≤ ((⌊(now - e.startTime) /
      millisecondsPerSubdivision e.clockState.subdivision (millisecondsPerBeat bpm)⌋ : ℤ) : ℚ) := by
    have h : (0 : ℤ) ≤ ⌊(now - e.startTime) /
        millisecondsPerSubdivision e.clockState.subdivision (millisecondsPerBeat bpm)⌋ :=
      Int.floor_nonneg.mpr (div_nonneg (by linarith) hI0.le)
    exact_mod_cast h
  have hd0 : (0 : ℚ) ≤ ((⌊((⌊(now - e.startTime) /
      millisecondsPerSubdivision e.clockState.subdivision (millisecondsPerBeat bpm)⌋ : ℤ) : ℚ) /
      (e.clockState.subdivision / 4)⌋ : ℤ) : ℚ) := by
    have h : (0 : ℤ) ≤ ⌊((⌊(now - e.startTime) /
        millisecondsPerSubdivision e.clockState.subdivision (millisecondsPerBeat bpm)⌋ : ℤ) : ℚ) /
        (e.clockState.subdivision / 4)⌋ :=
      Int.floor_nonneg.mpr (div_nonneg hT0 hspb0.le)
    exact_mod_cast h
  rw [generatePulse_currentBeat bpm now e h5, generatePulse_currentBar bpm now e h5]
  refine ⟨?_, ?_, ?_⟩
  · have h := jsMod_nonneg hd0 hbpb0
    linarith
  · have h := jsMod_lt hd0 hbpb0
    linarith
  · have h : (0 : ℤ) ≤ ⌊((⌊(now - e.startTime) /
        millisecondsPerSubdivision e.clockState.subdivision (millisecondsPerBeat bpm)⌋ : ℤ) : ℚ) /
        (e.clockState.subdivision / 4 * e.clockState.beatsPerBar)⌋ :=
      Int.floor_nonneg.mpr (div_nonneg hT0 (mul_pos hspb0 hbpb0).le)
    have hq : (0 : ℚ) ≤ ((⌊((⌊(now - e.startTime) /
        millisecondsPerSubdivision e.clockState.subdivision (millisecondsPerBeat bpm)⌋ : ℤ) : ℚ) /
        (e.clockState.subdivision / 4 * e.clockState.beatsPerBar)⌋ : ℤ) : ℚ) := by
      exact_mod_cast h
    linarith

/-- C9 amended: every reachable engine state keeps `beatsPerBar ∈ [1, 16]`,
`subdivision ∈ [4, 8, 16, 32]`, `currentBeat ∈ [1, 17)` and `currentBar ≥ 1`;
and every pulse fired while running re-establishes
`currentBeat < beatsPerBar + 1`.  The stronger invariant
`currentBeat ≤ beatsPerBar` holds right after each pulse but can be broken by
`setBeatsPerBar` shrinking `beatsPerBar` below an already-advanced beat, and
`currentBar` can advance across a pulse without `currentBeat` wrapping to 1. -/
theorem clock_reachable_bounds :
    (∀ e, ClockReachable e → ClockInv e) ∧
    (∀ (e : ClockEngine) (bpm now : ℚ), ClockInv e → e.startTime ≤ now →
      1 ≤ (generatePulse bpm now e).clockState.currentBeat ∧
      (generatePulse bpm now e).clockState.currentBeat < e.clockState.beatsPerBar + 1) := by
  constructor
  · intro e h
    induction h with
    | init =>
      refine ⟨by norm_num [initialClockEngine, initialClockState],
        by norm_num [initialClockEngine, initialClockState], ?_,
        by norm_num [initialClockEngine, initialClockState],
        by norm_num [initialClockEngine, initialClockState],
        by norm_num [initialClockEngine, initialClockState]⟩
      norm_num [initialClockEngine, initialClockState]
    | startOp now e h ih =>
      split
      · exact ih
      · exact ih
    | stopOp now e h ih =>
      split
      · exact ih
      · exact ih
    | resetOp now e h ih =>
      obtain ⟨h1, h2, h3, h4, h5, h6⟩ := ih
      unfold resetClock
      dsimp only
      split
      · exact ⟨h1, h2, h3, le_refl 1, by norm_num, le_refl 1⟩
      · exact ⟨h1, h2, h3, le_refl 1, by norm_num, le_refl 1⟩
    | setBeatsPerBarOp beats e h ih =>
      obtain ⟨h1, h2, h3, h4, h5, h6⟩ := ih
      unfold setBeatsPerBar
      split
      · next hcond => exact ⟨hcond.1, hcond.2, h3, h4, h5, h6⟩
      · exact ⟨h1, h2, h3, h4, h5, h6⟩
    | setSubdivisionOp sub e h ih =>
      obtain ⟨h1, h2, h3, h4, h5, h6⟩ := ih
      unfold setSubdivision
      split
      · next hcond => exact ⟨h1, h2, hcond, h4, h5, h6⟩
      · exact ⟨h1, h2, h3, h4, h5, h6⟩
    | pulseOp bpm now e h hrun hnow ih =>
      obtain ⟨h1, h2, h3, h4, h5, h6⟩ := ih
      have hb := generatePulse_beat_bounds bpm now e h1 h3 hnow
      refine ⟨?_, ?_, ?_, hb.1, ?_, hb.2.2⟩
      · rw [generatePulse_beatsPerBar]
        exact h1
      · rw [generatePulse_beatsPerBar]
        exact h2
      · rw [generatePulse_subdivision]
        exact h3
      · have := hb.2.1
        linarith
  · intro e bpm now hinv hnow
    have hb := generatePulse_beat_bounds bpm now e hinv.1 hinv.2.2.1 hnow
    exact ⟨hb.1, hb.2.1⟩

/-- Witness for C9's amended claim: the invariant at the initial state, and
the pulse bound at a concrete running engine. -/
theorem clock_reachable_bounds_witness :
    ClockInv initialClockEngine ∧
    (1 ≤ (generatePulse 120 1500 (startInternalClock 0 initialClockEngine)).clockState.currentBeat ∧
      (generatePulse 120 1500 (startInternalClock 0 initialClockEngine)).clockState.currentBeat <
        (startInternalClock 0 initialClockEngine).clockState.beatsPerBar + 1) :=
  ⟨clock_reachable_bounds.1 initialClockEngine ClockReachable.init,
    clock_reachable_bounds.2 (startInternalClock 0 initialClockEngine) 120 1500
      (by refine ⟨?_, ?_, ?_, ?_, ?_, ?_⟩ <;>
        norm_num [ClockInv, startInternalClock, initialClockEngine, initialClockState])
      (by norm_num [startInternalClock, initialClockEngine, initialClockState])⟩

/-- C9 counterexample: the engine reaches a state with `currentBeat = 4` but
`beatsPerBar = 2` (start at 0, pulse at 1500, then `setBeatsPerBar 2`), so
`currentBeat ∈ [1, beatsPerBar]` is not an invariant of every reachable state;
moreover with sparse pulse firings (t = 500, then t = 2500) `currentBar`
advances from 1 to 2 while `currentBeat` stays 2 and never wraps to 1. -/
theorem clock_beat_invariant_counterexample :
    ClockReachable shrunkEngine ∧
    shrunkEngine.clockState.beatsPerBar = 2 ∧
    shrunkEngine.clockState.currentBeat = 4 ∧
    ¬ (shrunkEngine.clockState.currentBeat ≤ shrunkEngine.clockState.beatsPerBar) ∧
    ((generatePulse 120 500 (startInternalClock 0 initialClockEngine)).clockState.currentBar = 1 ∧
      (generatePulse 120 500 (startInternalClock 0 initialClockEngine)).clockState.currentBeat = 2 ∧
      (generatePulse 120 2500
        (generatePulse 120 500 (startInternalClock 0 initialClockEngine))).clockState.currentBar = 2 ∧
      (generatePulse 120 2500
        (generatePulse 120 500 (startInternalClock 0 initialClockEngine))).clockState.currentBeat = 2) := by
  have h0 : ClockReachable (startInternalClock 0 initialClockEngine) := by
    have h := ClockReachable.startOp 0 initialClockEngine ClockReachable.init
    simpa [initialClockEngine, initialClockState] using h
  have h1 : ClockReachable pulsedEngine :=
    ClockReachable.pulseOp 120 1500 (startInternalClock 0 initialClockEngine) h0 rfl
      (by norm_num [startInternalClock, initialClockEngine, initialClockState])
  have h2 : ClockReachable shrunkEngine :=
    ClockReachable.setBeatsPerBarOp 2 pulsedEngine h1
  have hp : pulsedEngine =
      { clockState :=
          { isRunning := true, currentBeat := 4, currentBar := 1, beatsPerBar := 4, subdivision := 16 },
        startTime := 0 - 0, pausedTime := 0, lastPulseTime := 1500,
        lastPulse := some { timestamp := 1500, beat := 4, bar := 1, subdivision := 1 } } := by
    norm_num [pulsedEngine, generatePulse, startInternalClock, initialClockEngine,
      initialClockState, millisecondsPerSubdivision, millisecondsPerBeat, jsMod, jsTrunc]
  have hA : generatePulse 120 500 (startInternalClock 0 initialClockEngine) =
      { clockState :=
          { isRunning := true, currentBeat := 2, currentBar := 1, beatsPerBar := 4, subdivision := 16 },
        startTime := 0 - 0, pausedTime := 0, lastPulseTime := 500,
        lastPulse := some { timestamp := 500, beat := 2, bar := 1, subdivision := 1 } } := by
    norm_num [generatePulse, startInternalClock, initialClockEngine,
      initialClockState, millisecondsPerSubdivision, millisecondsPerBeat, jsMod, jsTrunc]
  have hB : generatePulse 120 2500
      ({ clockState :=
          { isRunning := true, currentBeat := 2, currentBar := 1, beatsPerBar := 4, subdivision := 16 },
         startTime := 0 - 0, pausedTime := 0, lastPulseTime := 500,
         lastPulse := some { timestamp := 500, beat := 2, bar := 1, subdivision := 1 } } :
        ClockEngine) =
      { clockState :=
          { isRunning := true, currentBeat := 2, currentBar := 2, beatsPerBar := 4, subdivision := 16 },
        startTime := 0 - 0, pausedTime := 0, lastPulseTime := 2500,
        lastPulse := some { timestamp := 2500, beat := 2, bar := 2, subdivision := 1 } } := by
    norm_num [generatePulse, millisecondsPerSubdivision, millisecondsPerBeat, jsMod, jsTrunc]
  refine ⟨h2, ?_, ?_, ?_, ?_⟩
  · show (setBeatsPerBar 2 pulsedEngine.clockState).beatsPerBar = 2
    rw [hp]
    norm_num [setBeatsPerBar]
  · show (setBeatsPerBar 2 pulsedEngine.clockState).currentBeat = 4
    rw [hp]
    norm_num [setBeatsPerBar]
  · show ¬ ((setBeatsPerBar 2 pulsedEngine.clockState).currentBeat ≤
      (setBeatsPerBar 2 pulsedEngine.clockState).beatsPerBar)
    rw [hp]
    norm_num [setBeatsPerBar]
  · rw [hA, hB]
    norm_num

end Midilogic
